import Mathlib

/-!
Verification of the data-preparation and summarization logic of the
wastewater-dewatering inquiry analysis tool (src/app.py).

The program manipulates a pandas DataFrame loaded from a spreadsheet.  We
embed a DataFrame as a `Table`: a list of column names together with rows,
each row carrying its pandas index label (a `Nat`) and a list of cells.

Cells are modelled by the inductive type `Cell`.  pandas distinguishes the
float missing value `NaN` (produced by the spreadsheet reader and by
`pd.to_numeric(errors='coerce')`) from the scalar `pd.NA` (introduced by the
app's `df.replace(..., pd.NA)` calls); both count as "missing" for
`dropna`/`isna`, but they stringify differently (`str(nan) = "nan"`,
`str(pd.NA) = "<NA>"`), which is observable in the text display filter.
Numbers are modelled as rationals; Python's float formatting is modelled by
a canonical rendering (no verified claim depends on numeric formatting).
-/

namespace Dehydrator

/-- A cell of the DataFrame: float NaN, pandas NA, a number, a string, or a
boolean. -/
inductive Cell where
  | nan : Cell
  | NA : Cell
  | num : ℚ → Cell
  | str : String → Cell
  | bool : Bool → Cell
deriving DecidableEq, Repr

/-- A DataFrame: column names, and rows tagged with their pandas index label. -/
structure Table where
  cols : List String
  rows : List (Nat × List Cell)
deriving DecidableEq, Repr

/-- `pd.isna` for a single cell: both `NaN` and `pd.NA` are missing. -/
def isNACell : Cell → Bool
  | .nan => true
  | .NA => true
  | _ => false

/-- Python `str()` of a cell, as produced by `Series.astype(str)`.
`str(float('nan')) = "nan"`, `str(pd.NA) = "<NA>"`, booleans render
capitalized.  Numbers are rendered canonically (integer part, or
`num/den`); Python formats floats differently, but no verified claim
depends on the formatting of numeric cells. -/
def pyStr : Cell → String
  | .nan => "nan"
  | .NA => "<NA>"
  | .num q => if q.den = 1 then toString q.num else toString q.num ++ "/" ++ toString q.den
  | .str s => s
  | .bool b => if b then "True" else "False"

/-- Python `str.lower()` (ASCII, which covers every string the claims use). -/
def pyLower (s : String) : String := ⟨s.data.map Char.toLower⟩

/-- The ASCII whitespace characters stripped by Python's `str.strip()` and
accepted around numbers by `float()` (Unicode spaces omitted; no claim uses
them). -/
def isPySpace (c : Char) : Bool :=
  c = ' ' || c = '\t' || c = '\n' || c = '\r' || c = '\x0b' || c = '\x0c'

/-- Python `str.strip()`. -/
def pyStrip (s : String) : String :=
  ⟨((s.data.dropWhile isPySpace).reverse.dropWhile isPySpace).reverse⟩

/-- Value of digits, most significant first (`'0'`..`'9'`). -/
def digitsToNat (l : List Char) : Nat :=
  l.foldl (fun a c => 10 * a + (c.toNat - 48)) 0

/-- Parse an unsigned decimal literal the way Python's `float()` does:
digits, optionally with one decimal point, at least one digit overall
(exponent and `inf`/`nan` forms are omitted; the cleaning pipeline proved
below never feeds such a token to the parser). -/
def parseUnsigned (l : List Char) : Option ℚ :=
  let ip := l.takeWhile (fun c => c ≠ '.')
  let rest := l.dropWhile (fun c => c ≠ '.')
  if ip.all Char.isDigit then
    match rest with
    | [] => if ip ≠ [] then some ((digitsToNat ip : ℚ)) else none
    | _ :: frac =>
        if frac.all Char.isDigit ∧ (ip ≠ [] ∨ frac ≠ []) then
          some ((digitsToNat ip : ℚ) + (digitsToNat frac : ℚ) / (10 ^ frac.length))
        else none
  else none

/-- Python `float(s)` as used by `pd.to_numeric`: strip whitespace, then an
optional sign and an unsigned decimal literal. -/
def parsePyFloat (s : String) : Option ℚ :=
  match (pyStrip s).data with
  | '+' :: rest => parseUnsigned rest
  | '-' :: rest => (parseUnsigned rest).map (fun q => -q)
  | t => parseUnsigned t

/-- `pd.to_numeric(x, errors='coerce')` on a single cell: numbers pass
through, booleans coerce to 0/1, strings are parsed as floats, and missing
values or parse failures give float NaN. -/
def toNumericCoerce : Cell → Cell
  | .nan => .nan
  | .NA => .nan
  | .num q => .num q
  | .bool b => .num (if b then 1 else 0)
  | .str s =>
      match parsePyFloat s with
      | some q => .num q
      | none => .nan

/-- `re.sub(r'^\s*$', '', s)`: the pattern matches exactly the all-whitespace
strings (including the empty string), which are replaced whole. -/
def subWsOnly (s : String) : String :=
  if s.data.all isPySpace then "" else s

/-- `re.sub('.', '', s)`: the unescaped `'.'` matches every character except
a newline, and `re.sub` deletes every match, so only newlines survive. -/
def subAnyChar (s : String) : String :=
  ⟨s.data.filter (fun c => c = '\n')⟩

/-- `re.sub('-', '', s)`: delete every dash. -/
def subDash (s : String) : String :=
  ⟨s.data.filter (fun c => c ≠ '-')⟩

/-- Delete every (non-overlapping, leftmost) occurrence of `N/A`. -/
def removeNAtok : List Char → List Char
  | 'N' :: '/' :: 'A' :: rest => removeNAtok rest
  | c :: rest => c :: removeNAtok rest
  | [] => []

/-- `re.sub('N/A', '', s)`. -/
def subNAtoken (s : String) : String := ⟨removeNAtok s.data⟩

/-- `Series.replace('', pd.NA)` on one (string) cell: exact match. -/
def emptyToNA (s : String) : Cell :=
  if s = "" then Cell.NA else Cell.str s

/-- One cell of a measurement column through the per-column cleaning of
`load_and_process_data` (src/app.py lines 47-53): `astype(str)`, `str.strip()`,
`replace(['^\s*$', '.', '-', 'N/A'], '', regex=True)` applied pattern by
pattern in list order, `replace('', pd.NA)`, then
`pd.to_numeric(errors='coerce')`. -/
def cleanMeasCell (c : Cell) : Cell :=
  toNumericCoerce (emptyToNA (subNAtoken (subDash (subAnyChar (subWsOnly (pyStrip (pyStr c)))))))

/-- `df.replace(old, new)` on one cell (exact, non-regex match). -/
def replaceCell (old new c : Cell) : Cell :=
  if c = old then new else c

/-- `df.replace(old, new)` across the whole DataFrame. -/
def replaceAll (t : Table) (old new : Cell) : Table :=
  { t with rows := t.rows.map (fun r => (r.1, r.2.map (replaceCell old new))) }

/-- The global zero-as-missing rewrite of src/app.py lines 39-40:
`df.replace(0, pd.NA)` followed by `df.replace('0', pd.NA)`. -/
def globalZeroToNA (t : Table) : Table :=
  replaceAll (replaceAll t (.num 0) .NA) (.str "0") .NA

/-- The zero-as-missing policy stated cellwise, following the spec's words:
a cell holding numeric 0 or the string "0" becomes missing, anything else is
untouched. -/
def zeroRule (x : Cell) : Cell :=
  if x = .num 0 ∨ x = .str "0" then Cell.NA else x

/-- Replace the cell at position `i` of a row. -/
def mapAt : Nat → (Cell → Cell) → List Cell → List Cell
  | _, _, [] => []
  | 0, f, x :: xs => f x :: xs
  | n + 1, f, x :: xs => x :: mapAt n f xs

/-- Apply `f` to every cell of column `c` (`df[c] = f(df[c])` elementwise),
skipping the assignment when the column is absent (`if col in df.columns`). -/
def mapColumn (t : Table) (c : String) (f : Cell → Cell) : Table :=
  match t.cols.findIdx? (fun x => x = c) with
  | none => t
  | some i => { t with rows := t.rows.map (fun r => (r.1, mapAt i f r.2)) }

/-- The two measurement columns cleaned by `load_and_process_data`. -/
def columnsToClean : List String := ["固形物回収率 %", "脱水ケーキ含水率 %"]

/-- The DataFrame transformation performed by `load_and_process_data`
(src/app.py lines 35-55) after a successful `pd.read_excel`: the global
zero-to-NA replace, then the per-column cleaning of the two measurement
columns. -/
def load_and_process_data (t : Table) : Table :=
  columnsToClean.foldl (fun acc c => mapColumn acc c cleanMeasCell) (globalZeroToNA t)

/-- `load_and_process_data` including its `try`/`except` (src/app.py lines
34-58): the outcome of `pd.read_excel` enters as an `Except`; on any parse
error the function returns no table and produces the `st.error` message
instead of re-raising. -/
def loadResult (input : Except String Table) : Option Table × Option String :=
  match input with
  | .ok t => (some (load_and_process_data t), none)
  | .error e => (none, some ("ファイルの読み込み中にエラーが発生しました: " ++ e))

/-- The cell of row `r` at column `c` (`df.loc[r, c]`); `Cell.nan` when the
column is absent (pandas rows always carry every column, so the default is
never observed on well-formed tables). -/
def cellVal (cols : List String) (r : Nat × List Cell) (c : String) : Cell :=
  (((cols.findIdx? (fun x => x = c)).bind (fun i => r.2[i]?)).getD Cell.nan)

/-- Column `c` of the table as a list of cells, in row order (`df[c]`). -/
def getColumn (t : Table) (c : String) : List Cell :=
  t.rows.map (fun r => cellVal t.cols r c)

/-! ## Initial category filters (src/app.py lines 315-325) -/

def orderCol : String := "受注の有無"

def majorCol : String := "業種大分類"

def minorCol : String := "業種中分類"

/-- One guarded filter of `main`:
`if sel is not None and sel and col in df.columns: df = df[df[col].isin(sel)]`.
A `None` selection (column missing, or no selectable values) behaves exactly
like the empty list, so selections are modelled as plain lists.  The
multiselect options exclude missing values, so `isin`'s NaN special case is
never exercised by the app. -/
def filterByIsin (t : Table) (c : String) (sel : List Cell) : Table :=
  if sel ≠ [] ∧ c ∈ t.cols then
    { t with rows := t.rows.filter (fun r => decide (cellVal t.cols r c ∈ sel)) }
  else t

/-- The initial filter step of `main` (src/app.py lines 315-325): the three
`isin` filters applied in source order to a copy of the loaded table. -/
def applyInitialFilters (t : Table) (orderSel mainSel subSel : List Cell) : Table :=
  filterByIsin (filterByIsin (filterByIsin t orderCol orderSel) majorCol mainSel) minorCol subSel

/-- Refinement target, following the spec's words: a row is retained iff,
for each column present in the table whose allowed-value set is non-empty,
the row's value for that column is a member of the set. -/
def specRetains (cols : List String) (sels : List (String × List Cell))
    (r : Nat × List Cell) : Bool :=
  sels.all (fun p => if p.1 ∈ cols ∧ p.2 ≠ [] then decide (cellVal cols r p.1 ∈ p.2) else true)

/-! ## Grouped counts and display order (src/app.py lines 126-195 and 60-93) -/

def machineCol : String := "脱水機種別"

/-- The two allowed dewatering-machine labels (src/app.py line 138). -/
def allowedMachines : List Cell :=
  [.str "多重円板型脱水機", .str "多重板型スクリュープレス脱水機"]

/-- Distinct values of `l` (in first-occurrence order) with their
multiplicities: the counts underlying `groupby(...).size()` and
`value_counts()`. -/
def countsOf {α : Type} [DecidableEq α] (l : List α) : List (α × Nat) :=
  l.dedup.map (fun k => (k, l.count k))

/-- Descending-count ordering on keyed counts. -/
def countDescRel {α : Type} (a b : α × Nat) : Prop := b.2 ≤ a.2

instance {α : Type} : DecidableRel (@countDescRel α) :=
  fun a b => inferInstanceAs (Decidable (b.2 ≤ a.2))

instance {α : Type} : IsTotal (α × Nat) countDescRel :=
  ⟨fun a b => le_total b.2 a.2⟩

instance {α : Type} : IsTrans (α × Nat) countDescRel :=
  ⟨fun _ _ _ h1 h2 => le_trans h2 h1⟩

/-- `Series.value_counts(dropna=...)`: counts of the distinct values, sorted
by descending count.  pandas sorts with an unstable sort, so the order among
tied counts is arbitrary in the source; the model uses a stable sort over
first-occurrence key order, which is permutation-equivalent, and no claim
depends on the tie order. -/
def valueCounts (l : List Cell) (dropna : Bool) : List (Cell × Nat) :=
  List.insertionSort countDescRel
    (countsOf (if dropna then l.filter (fun c => !isNACell c) else l))

/-- Strict lexicographic order on character lists (the order of Python
strings). -/
def charListLt : List Char → List Char → Bool
  | [], [] => false
  | [], _ :: _ => true
  | _ :: _, [] => false
  | a :: as, b :: bs => decide (a < b) || (decide (a = b) && charListLt as bs)

/-- Ordering of summary rows after src/app.py line 147
(`sort_values(by=[group_by, '件数'], ascending=[True, False])`, preceded by
`groupby`'s own ascending key sort): group label ascending, then count
descending.  Group cells are compared through their string forms; the charts
group on string-valued columns, where this coincides with pandas' ordering. -/
def groupAscCountDesc (a b : (Cell × Cell) × Nat) : Prop :=
  charListLt (pyStr a.1.1).data (pyStr b.1.1).data = true
    ∨ (pyStr a.1.1 = pyStr b.1.1 ∧ b.2 ≤ a.2)

instance : DecidableRel groupAscCountDesc := fun a b =>
  inferInstanceAs (Decidable (_ ∨ _))

/-- The label `fillna` writes over missing group keys (src/app.py line 159). -/
def naLabel : Cell := .str "不明/欠損値"

/-- The rows contributing to the machine-type cross-tab: those whose
machine-type cell is one of the two allowed labels (src/app.py line 140). -/
def machineRows (t : Table) : List (Nat × List Cell) :=
  t.rows.filter (fun r => decide (cellVal t.cols r machineCol ∈ allowedMachines))

/-- The summary construction of `create_summary_chart` (src/app.py lines
137-164).  When grouping by the major or minor industry category with the
machine-type column present: restrict to the two allowed machine types
(`none` when nothing matches, line 150-151), `groupby([group, machine],
dropna=False).size()`, then the line-147 sort.  Otherwise:
`value_counts(dropna=False)` with the missing key relabelled when the column
has NaNs, plain `value_counts()` when it has none.  Each entry is
`((group value, optional machine type), count)`. -/
def summaryCore (t : Table) (g : String) :
    Option (List ((Cell × Option Cell) × Nat)) :=
  if (g = majorCol ∨ g = minorCol) ∧ machineCol ∈ t.cols then
    if machineRows t = [] then none
    else
      some ((List.insertionSort groupAscCountDesc (countsOf
        ((machineRows t).map (fun r => (cellVal t.cols r g, cellVal t.cols r machineCol))))).map
        (fun kn => ((kn.1.1, some kn.1.2), kn.2)))
  else
    if (getColumn t g).any isNACell then
      some ((valueCounts (getColumn t g) false).map
        (fun kn => ((if isNACell kn.1 then naLabel else kn.1, none), kn.2)))
    else
      some ((valueCounts (getColumn t g) true).map
        (fun kn => ((kn.1, none), kn.2)))

/-- The grouped counts computed by `create_summary_chart` (src/app.py lines
129-169), up to the point where the non-empty summary table exists: `none`
models the early `return`s (missing column, empty data, all-missing group
column, no machine-type match, empty summary). -/
def createSummary (t : Table) (g : String) :
    Option (List ((Cell × Option Cell) × Nat)) :=
  if t.rows = [] ∨ g ∉ t.cols then none
  else if (getColumn t g).filter (fun c => !isNACell c) = [] then none
  else
    match summaryCore t g with
    | none => none
    | some s => if s = [] then none else some s

/-- The x-axis category order of `create_summary_chart` (src/app.py lines
171-175): the group column of the summary cast to `str`, per-label totals
(`groupby(group_by)['件数'].sum()`), sorted by descending total.  pandas'
`groupby` sorts labels ascending and `sort_values` is unstable, so tie order
is arbitrary in the source; the model stably sorts the first-occurrence
label order, and the verified ordering property is independent of ties. -/
def labelTotals (s : List ((Cell × Option Cell) × Nat)) : List (String × Nat) :=
  ((s.map (fun kn => (pyStr kn.1.1, kn.2))).map (fun x => x.1)).dedup.map
    (fun lab => (lab, (((s.map (fun kn => (pyStr kn.1.1, kn.2))).filter
      (fun x => x.1 = lab)).map (fun x => x.2)).sum))

def chartCategoryOrder (t : Table) (g : String) : Option (List (String × Nat)) :=
  match createSummary t g with
  | none => none
  | some s => some (List.insertionSort countDescRel (labelTotals s))

/-- The rows `create_boxplot` plots: those with no missing value in either
category column or the value column (src/app.py line 65). -/
def boxplotRows (t : Table) (valueCol : String) : List (Nat × List Cell) :=
  t.rows.filter (fun r =>
    !isNACell (cellVal t.cols r majorCol) && !isNACell (cellVal t.cols r minorCol) &&
      !isNACell (cellVal t.cols r valueCol))

/-- The x-axis category order of `create_boxplot` (src/app.py lines 63-78):
drop rows missing either category or the value, build the combined
`Main_Sub` label, `value_counts()` (already descending), then
`sort_values('count', ascending=False)`.  The code keeps only the labels of
the sorted pairs, in the same order. -/
def boxplotCategoryOrder (t : Table) (valueCol : String) :
    Option (List (String × Nat)) :=
  if t.rows = [] ∨ majorCol ∉ t.cols ∨ minorCol ∉ t.cols ∨ valueCol ∉ t.cols then none
  else if boxplotRows t valueCol = [] then none
  else
    some (List.insertionSort countDescRel (List.insertionSort countDescRel
      (countsOf ((boxplotRows t valueCol).map (fun r =>
        pyStr (cellVal t.cols r majorCol) ++ " - " ++ pyStr (cellVal t.cols r minorCol))))))

/-! ## Additional display filter, text branch (src/app.py lines 416-420) -/

/-- Literal prefix match on character lists. -/
def litPrefixB : List Char → List Char → Bool
  | [], _ => true
  | _ :: _, [] => false
  | p :: ps, c :: cs => decide (p = c) && litPrefixB ps cs

/-- Boolean substring containment: `isInfixB needle hay`. -/
def isInfixB (needle : List Char) : List Char → Bool
  | [] => litPrefixB needle []
  | c :: cs => litPrefixB needle (c :: cs) || isInfixB needle cs

/-- Anchored match of a regex pattern consisting of literal characters and
the metacharacter `'.'` (any character except newline).  This is the
fragment of Python `re` semantics the display filter's claims exercise;
patterns using other metacharacters are outside the model and excluded by
hypothesis in the theorems below. -/
def reMatchHere : List Char → List Char → Bool
  | [], _ => true
  | _ :: _, [] => false
  | p :: ps, c :: cs =>
      (decide (p = '.') && decide (c ≠ '\n') || decide (p = c)) && reMatchHere ps cs

/-- `re.search`: the pattern matches at some position of the text
(`Series.str.contains` uses `re.search` when `regex=True`, its default). -/
def reSearch (pat : List Char) : List Char → Bool
  | [] => reMatchHere pat []
  | c :: cs => reMatchHere pat (c :: cs) || reSearch pat cs

/-- The regex metacharacters of Python `re`. -/
def regexMetaChars : List Char :=
  ['\\', '^', '$', '.', '|', '?', '*', '+', '(', ')', '[', ']', Char.ofNat 123, Char.ofNat 125]

/-- The text branch of the additional display filter (src/app.py lines
416-420), taken when the column is neither numeric nor boolean:
`col_data_str = df[col].astype(str).str.lower().fillna('')` (the `fillna` is
a no-op after `astype(str)`) and retention by
`col_data_str.str.contains(str(filter_value).lower(), na=False)`
(`str()` of the text-input value is the identity). -/
def textDisplayFilter (t : Table) (col pat : String) : Table :=
  { t with rows := t.rows.filter (fun r =>
      reSearch (pyLower pat).data (pyLower (pyStr (cellVal t.cols r col))).data) }

/-! ## Row deletion (src/app.py lines 444-461) -/

/-- The pandas index labels of the rows of a table (`df.index`). -/
def displayedIdxs (d : Table) : List Nat := d.rows.map (fun r => r.1)

/-- The delete-button action on `(filtered_data, display_data)`: when the
displayed index set is non-empty and every displayed label is still present
in the working table, drop those labels from the working table
(`filtered_data.drop(indices)`) and resync the display to it; when some
label is absent, leave the working table unchanged and resync the display;
when nothing is displayed, change nothing. -/
def deleteDisplayed (filtered display : Table) : Table × Table :=
  if displayedIdxs display ≠ []
      ∧ (displayedIdxs display).all (fun i => decide (i ∈ displayedIdxs filtered)) then
    (⟨filtered.cols, filtered.rows.filter (fun r => decide (r.1 ∉ displayedIdxs display))⟩,
     ⟨filtered.cols, filtered.rows.filter (fun r => decide (r.1 ∉ displayedIdxs display))⟩)
  else if displayedIdxs display ≠ [] then (filtered, filtered)
  else (filtered, display)

/-! ## Concrete tables used by witnesses and counterexamples -/

/-- The C1 scenario table: measurement cells `"10"`, `" "`, `"0"`. -/
def scenarioTable : Table :=
  ⟨["業種大分類", "固形物回収率 %"],
    [(0, [.str "A", .str "10"]), (1, [.str "A", .str " "]), (2, [.str "B", .str "0"])]⟩

/-- A table for the summary-chart witnesses: one row of each machine type
plus one row with a machine type outside the allowed pair. -/
def machineTable : Table :=
  ⟨["業種大分類", "脱水機種別"],
    [(0, [.str "A", .str "多重円板型脱水機"]),
     (1, [.str "A", .str "他機種"]),
     (2, [.str "B", .str "多重板型スクリュープレス脱水機"])]⟩

/-- A table for the boxplot witness: two complete rows sharing a category
pair, one row with a missing value. -/
def boxTable : Table :=
  ⟨["業種大分類", "業種中分類", "固形物回収率 %"],
    [(0, [.str "A", .str "X", .num 1]),
     (1, [.str "A", .str "X", .num 2]),
     (2, [.str "B", .str "Y", .nan])]⟩

/-- A working table for the deletion witness. -/
def workTable : Table :=
  ⟨["c"], [(0, [.str "x"]), (1, [.str "y"]), (2, [.str "z"])]⟩

/-- A display table whose labels are all present in `workTable`. -/
def displayPresent : Table := ⟨["c"], [(1, [.str "y"])]⟩

/-- A display table with a label absent from `workTable`. -/
def displayStale : Table := ⟨["c"], [(5, [.str "q"])]⟩

/-- A one-row table whose cell is the plain string `"ab"`. -/
def abTable : Table := ⟨["c"], [(0, [.str "ab"])]⟩

/-- A one-row table whose cell is `pd.NA` (as the zero-as-missing rewrite
produces). -/
def naCellTable : Table := ⟨["c"], [(0, [.NA])]⟩

/-- A table exercising the text display filter: a matching string, a
non-matching string, and a float-NaN missing cell. -/
def textTable : Table :=
  ⟨["c"], [(0, [.str "Banana"]), (1, [.str "xyz"]), (2, [.nan])]⟩

/-! ## Helper lemmas -/

theorem mk_data_eq : ∀ (s : String), String.mk s.data = s
  | ⟨_⟩ => rfl

theorem dropWhile_eq_nil_of_all {p : Char → Bool} :
    ∀ (l : List Char), (∀ x ∈ l, p x = true) → l.dropWhile p = [] := by
  intro l
  induction l with
  | nil => intro _; rfl
  | cons a rest ih =>
      intro h
      rw [List.dropWhile_cons, if_pos (h a (List.mem_cons_self a rest))]
      exact ih (fun x hx => h x (List.mem_cons_of_mem _ hx))

theorem pyStrip_all_space {s : String} (h : ∀ ch ∈ s.data, isPySpace ch = true) :
    pyStrip s = "" := by
  unfold pyStrip
  rw [dropWhile_eq_nil_of_all _ h]
  rfl

theorem removeNAtok_newlines :
    ∀ (l : List Char), (∀ c ∈ l, c = '\n') → removeNAtok l = l := by
  intro l
  induction l with
  | nil => intro _; rfl
  | cons a rest ih =>
      intro h
      have ha : a = '\n' := h a (List.mem_cons_self a rest)
      subst ha
      have step : removeNAtok ('\n' :: rest) = '\n' :: removeNAtok rest := rfl
      rw [step, ih (fun c hc => h c (List.mem_cons_of_mem _ hc))]

theorem parsePyFloat_newlines {s : String} (h : ∀ ch ∈ s.data, ch = '\n') :
    parsePyFloat s = none := by
  have hsp : ∀ ch ∈ s.data, isPySpace ch = true := by
    intro ch hch
    rw [h ch hch]
    rfl
  unfold parsePyFloat
  rw [pyStrip_all_space hsp]
  rfl

/-- Every cell of a measurement column is cleaned to float NaN: the
unescaped `'.'` in the regex list deletes every non-newline character, the
surviving newlines are whitespace that the numeric parse rejects, and the
empty string goes through `pd.NA` to NaN. -/
theorem cleanMeasCell_eq_nan (c : Cell) : cleanMeasCell c = Cell.nan := by
  unfold cleanMeasCell
  have h2 : ∀ ch ∈ (subAnyChar (subWsOnly (pyStrip (pyStr c)))).data, ch = '\n' := by
    intro ch hch
    have hch' : ch ∈ (subWsOnly (pyStrip (pyStr c))).data.filter
        (fun x => decide (x = '\n')) := hch
    rw [List.mem_filter] at hch'
    exact of_decide_eq_true hch'.2
  have h3 : ∀ ch ∈ (subDash (subAnyChar (subWsOnly (pyStrip (pyStr c))))).data, ch = '\n' := by
    intro ch hch
    have hch' : ch ∈ (subAnyChar (subWsOnly (pyStrip (pyStr c)))).data.filter
        (fun x => decide (x ≠ '-')) := hch
    rw [List.mem_filter] at hch'
    exact h2 ch hch'.1
  have h4 : subNAtoken (subDash (subAnyChar (subWsOnly (pyStrip (pyStr c)))))
      = subDash (subAnyChar (subWsOnly (pyStrip (pyStr c)))) := by
    unfold subNAtoken
    rw [removeNAtok_newlines _ h3, mk_data_eq]
  rw [h4]
  by_cases h0 : subDash (subAnyChar (subWsOnly (pyStrip (pyStr c)))) = ""
  · rw [h0]
    rfl
  · unfold emptyToNA
    rw [if_neg h0]
    show toNumericCoerce (Cell.str _) = Cell.nan
    simp only [toNumericCoerce]
    rw [parsePyFloat_newlines h3]

theorem zeroRule_cell (x : Cell) :
    replaceCell (.str "0") .NA (replaceCell (.num 0) .NA x) = zeroRule x := by
  by_cases h1 : x = .num 0
  · subst h1
    simp [replaceCell, zeroRule]
  · by_cases h2 : x = .str "0"
    · subst h2
      simp [replaceCell, zeroRule]
    · simp [replaceCell, zeroRule, h1, h2]

theorem globalZeroToNA_eq (t : Table) :
    globalZeroToNA t = ⟨t.cols, t.rows.map (fun r => (r.1, r.2.map zeroRule))⟩ := by
  unfold globalZeroToNA replaceAll
  congr 1
  rw [List.map_map]
  apply List.map_congr_left
  intro r _
  show (r.1, (r.2.map (replaceCell (.num 0) .NA)).map (replaceCell (.str "0") .NA))
      = (r.1, r.2.map zeroRule)
  rw [List.map_map]
  exact congrArg _ (List.map_congr_left (fun x _ => zeroRule_cell x))

theorem zeroRule_idem (x : Cell) : zeroRule (zeroRule x) = zeroRule x := by
  by_cases h : x = .num 0 ∨ x = .str "0"
  · simp [zeroRule, h]
  · simp [zeroRule, h]

/-! ## Claim theorems -/

/-- C1: the claim states that on the scenario column ["10", " ", "0"] the
cleaned values are [10, null, null], the token "10" parsing to the number
10.  The code disagrees: its regex replacement list contains the unescaped
pattern `'.'`, which `re.sub` applies to every cell, deleting every
character, so the whole column - the "10" included - is cleaned to missing.
This theorem evaluates the code of `load_and_process_data` at the scenario
table: all three cells come out null and "10" does not clean to 10. -/
theorem c1_scenario_all_null :
    getColumn (load_and_process_data scenarioTable) "固形物回収率 %"
      = [Cell.nan, Cell.nan, Cell.nan]
    ∧ cleanMeasCell (.str "10") ≠ Cell.num 10 := by
  constructor
  · rfl
  · rw [cleanMeasCell_eq_nan]
    decide

/-- C2: the global zero-as-missing rewrite of `load_and_process_data`
(lines 39-40) rewrites every cell of every column holding numeric 0 or the
string "0" to missing and leaves all other cells alone; it happens before
the numeric coercion of the measurement columns (the per-column cleaning is
applied to its output); and applying the rewrite a second time changes
nothing. -/
theorem c2_zero_rewrite_global_idempotent (t : Table) :
    (globalZeroToNA t).cols = t.cols
    ∧ (globalZeroToNA t).rows
        = t.rows.map (fun r => (r.1, r.2.map zeroRule))
    ∧ globalZeroToNA (globalZeroToNA t) = globalZeroToNA t
    ∧ load_and_process_data t
        = columnsToClean.foldl (fun acc c => mapColumn acc c cleanMeasCell)
            (globalZeroToNA t) := by
  refine ⟨by rw [globalZeroToNA_eq], by rw [globalZeroToNA_eq], ?_, rfl⟩
  rw [globalZeroToNA_eq t, globalZeroToNA_eq]
  congr 1
  rw [List.map_map]
  apply List.map_congr_left
  intro r _
  show (r.1, (r.2.map zeroRule).map zeroRule) = (r.1, r.2.map zeroRule)
  rw [List.map_map]
  exact congrArg _ (List.map_congr_left (fun x _ => zeroRule_idem x))

/-- C3: a measurement-column cell that is an empty string, whitespace-only,
or a non-numeric token is cleaned to missing - never to the number 0, and
never to an error (`cleanMeasCell` is a total function).  In fact the
cleaning routine maps every cell to missing (`cleanMeasCell_eq_nan`). -/
theorem c3_blank_or_nonnumeric_is_null (c : Cell)
    (h : c = .str ""
      ∨ (∃ s, c = .str s ∧ s.data.all isPySpace = true)
      ∨ (∃ s, c = .str s ∧ parsePyFloat s = none)) :
    cleanMeasCell c = Cell.nan ∧ cleanMeasCell c ≠ Cell.num 0 := by
  refine ⟨cleanMeasCell_eq_nan c, ?_⟩
  rw [cleanMeasCell_eq_nan]
  decide

/-- Witness for C3 at the whitespace-only cell `" "`. -/
theorem c3_witness :
    cleanMeasCell (.str " ") = Cell.nan ∧ cleanMeasCell (.str " ") ≠ Cell.num 0 :=
  c3_blank_or_nonnumeric_is_null (.str " ") (Or.inr (Or.inl ⟨" ", rfl, by decide⟩))

/-- C8: when the spreadsheet parse raises, `load_and_process_data` returns
no table and surfaces the descriptive `st.error` message instead of
propagating the exception; on a successful parse it returns the processed
table and no error message. -/
theorem c8_load_error_handling (e : String) (t : Table) :
    loadResult (.error e)
      = (none, some ("ファイルの読み込み中にエラーが発生しました: " ++ e))
    ∧ loadResult (.ok t) = (some (load_and_process_data t), none) :=
  ⟨rfl, rfl⟩

theorem filterByIsin_eq (t : Table) (c : String) (sel : List Cell) :
    filterByIsin t c sel
      = ⟨t.cols, t.rows.filter (fun r =>
          if c ∈ t.cols ∧ sel ≠ [] then decide (cellVal t.cols r c ∈ sel) else true)⟩ := by
  unfold filterByIsin
  by_cases h : sel ≠ [] ∧ c ∈ t.cols
  · rw [if_pos h]
    congr 1
    apply List.filter_congr
    intro r _
    rw [if_pos ⟨h.2, h.1⟩]
  · rw [if_neg h]
    have hall : ∀ r ∈ t.rows,
        (if c ∈ t.cols ∧ sel ≠ [] then decide (cellVal t.cols r c ∈ sel) else true) = true := by
      intro r _
      rw [if_neg (fun hc => h ⟨hc.2, hc.1⟩)]
    calc t = ⟨t.cols, t.rows⟩ := rfl
    _ = _ := by rw [List.filter_eq_self.mpr hall]

theorem applyInitialFilters_eq (t : Table) (a b c : List Cell) :
    applyInitialFilters t a b c
      = ⟨t.cols, t.rows.filter
          (specRetains t.cols [(orderCol, a), (majorCol, b), (minorCol, c)])⟩ := by
  unfold applyInitialFilters
  rw [filterByIsin_eq, filterByIsin_eq, filterByIsin_eq]
  congr 1
  rw [List.filter_filter, List.filter_filter]
  apply List.filter_congr
  intro r _
  simp only [specRetains, List.all_cons, List.all_nil, Bool.and_true]
  ac_rfl

/-- C4: applying the initial category filter step with an empty selection
for every column is the identity, and applying the step a second time with
the same selections to an already-filtered table changes nothing. -/
theorem c4_filter_identity_idempotent :
    (∀ t : Table, applyInitialFilters t [] [] [] = t)
    ∧ (∀ (t : Table) (a b c : List Cell),
        applyInitialFilters (applyInitialFilters t a b c) a b c
          = applyInitialFilters t a b c) := by
  constructor
  · intro t
    simp [applyInitialFilters, filterByIsin]
  · intro t a b c
    rw [applyInitialFilters_eq t, applyInitialFilters_eq]
    congr 1
    rw [List.filter_filter]
    apply List.filter_congr
    intro r _
    rw [Bool.and_self]

/-- C5: the initial category filter step retains exactly the rows whose
value, for each of the three filter columns that is present in the table
and has a non-empty allowed-value set, belongs to that set; the retained
rows keep their original relative order (the result is a `List.filter` of
the input rows), and the columns are untouched. -/
theorem c5_filter_retains_exactly (t : Table) (a b c : List Cell) :
    (applyInitialFilters t a b c).cols = t.cols
    ∧ (applyInitialFilters t a b c).rows
        = t.rows.filter
            (specRetains t.cols [(orderCol, a), (majorCol, b), (minorCol, c)]) := by
  rw [applyInitialFilters_eq]
  exact ⟨rfl, rfl⟩

theorem sum_snd_countsOf {α : Type} [DecidableEq α] (l : List α) :
    ((countsOf l).map (fun x => x.2)).sum = l.length := by
  unfold countsOf
  rw [List.map_map]
  exact List.sum_map_count_dedup_eq_length l

theorem sum_snd_insertionSort {α : Type} (r : (α × Nat) → (α × Nat) → Prop)
    [DecidableRel r] (l : List (α × Nat)) :
    ((List.insertionSort r l).map (fun x => x.2)).sum = (l.map (fun x => x.2)).sum :=
  List.Perm.sum_eq ((List.perm_insertionSort r l).map _)

theorem sum_snd_map_of_snd_eq {α β : Type} (g : (α × Nat) → (β × Nat))
    (hg : ∀ x, (g x).2 = x.2) (l : List (α × Nat)) :
    ((l.map g).map (fun x => x.2)).sum = (l.map (fun x => x.2)).sum := by
  rw [List.map_map]
  congr 1
  apply List.map_congr_left
  intro x _
  exact hg x

theorem sum_snd_valueCounts_all (l : List Cell) :
    ((valueCounts l false).map (fun x => x.2)).sum = l.length := by
  unfold valueCounts
  rw [sum_snd_insertionSort, sum_snd_countsOf]
  rfl

theorem sum_snd_valueCounts_dropna (l : List Cell) :
    ((valueCounts l true).map (fun x => x.2)).sum
      = (l.filter (fun c => !isNACell c)).length := by
  unfold valueCounts
  rw [sum_snd_insertionSort, sum_snd_countsOf]
  rfl

/-- C6: whenever `create_summary_chart` produces grouped counts, their sum
equals the number of contributing rows: the machine-type-restricted row
count in the cross-tab branch (major/minor grouping with the machine-type
column present), the full row count otherwise. -/
theorem c6_summary_counts_total (t : Table) (g : String)
    (s : List ((Cell × Option Cell) × Nat))
    (h : createSummary t g = some s) :
    (s.map (fun x => x.2)).sum =
      if (g = majorCol ∨ g = minorCol) ∧ machineCol ∈ t.cols then
        (machineRows t).length
      else t.rows.length := by
  unfold createSummary at h
  by_cases h1 : t.rows = [] ∨ g ∉ t.cols
  · rw [if_pos h1] at h
    exact absurd h (by simp)
  · rw [if_neg h1] at h
    by_cases h2 : (getColumn t g).filter (fun c => !isNACell c) = []
    · rw [if_pos h2] at h
      exact absurd h (by simp)
    · rw [if_neg h2] at h
      cases hc : summaryCore t g with
      | none =>
          rw [hc] at h
          exact absurd h (by simp)
      | some s0 =>
          rw [hc] at h
          dsimp only at h
          by_cases h3 : s0 = []
          · rw [if_pos h3] at h
            exact absurd h (by simp)
          · rw [if_neg h3] at h
            have hs : s0 = s := by simpa using h
            subst hs
            unfold summaryCore at hc
            by_cases hA : (g = majorCol ∨ g = minorCol) ∧ machineCol ∈ t.cols
            · rw [if_pos hA] at hc
              rw [if_pos hA]
              by_cases hM : machineRows t = []
              · rw [if_pos hM] at hc
                exact absurd hc (by simp)
              · rw [if_neg hM] at hc
                have hx := Option.some.inj hc
                rw [← hx,
                  sum_snd_map_of_snd_eq
                    (fun kn : (Cell × Cell) × Nat => ((kn.1.1, some kn.1.2), kn.2))
                    (fun _ => rfl),
                  sum_snd_insertionSort, sum_snd_countsOf, List.length_map]
            · rw [if_neg hA] at hc
              rw [if_neg hA]
              by_cases hN : (getColumn t g).any isNACell = true
              · rw [if_pos hN] at hc
                have hx := Option.some.inj hc
                rw [← hx,
                  sum_snd_map_of_snd_eq
                    (fun kn : Cell × Nat => ((if isNACell kn.1 then naLabel else kn.1, none), kn.2))
                    (fun _ => rfl),
                  sum_snd_valueCounts_all]
                simp [getColumn]
              · rw [if_neg hN] at hc
                have hx := Option.some.inj hc
                have hN2 : (getColumn t g).any isNACell = false := by
                  cases hb : (getColumn t g).any isNACell
                  · rfl
                  · exact absurd hb hN
                have hfilt : (getColumn t g).filter (fun c => !isNACell c)
                    = getColumn t g := by
                  apply List.filter_eq_self.mpr
                  intro x hxmem
                  have hx2 := List.any_eq_false.mp hN2 x hxmem
                  simp only [Bool.not_eq_true] at hx2
                  simp [hx2]
                rw [← hx,
                  sum_snd_map_of_snd_eq
                    (fun kn : Cell × Nat => ((kn.1, none), kn.2))
                    (fun _ => rfl),
                  sum_snd_valueCounts_dropna, hfilt]
                simp [getColumn]

/-- Witness for C6 on `machineTable` (major-category grouping with the
machine-type column present): the counts sum to the two machine-allowed
rows. -/
theorem c6_witness :
    (([((Cell.str "A", some (Cell.str "多重円板型脱水機")), 1),
       ((Cell.str "B", some (Cell.str "多重板型スクリュープレス脱水機")), 1)]
        : List ((Cell × Option Cell) × Nat)).map (fun x => x.2)).sum
      = if (majorCol = majorCol ∨ majorCol = minorCol) ∧ machineCol ∈ machineTable.cols then
          (machineRows machineTable).length
        else machineTable.rows.length :=
  c6_summary_counts_total machineTable majorCol _ (by rfl)

/-- C7: whenever `create_summary_chart` (respectively `create_boxplot`)
produces its display category order, consecutive entries carry
non-increasing total counts: the groups are ordered by descending total
count. -/
theorem c7_display_order_descending :
    (∀ (t : Table) (g : String) (l : List (String × Nat)),
        chartCategoryOrder t g = some l → l.Pairwise countDescRel)
    ∧ (∀ (t : Table) (v : String) (l : List (String × Nat)),
        boxplotCategoryOrder t v = some l → l.Pairwise countDescRel) := by
  constructor
  · intro t g l h
    unfold chartCategoryOrder at h
    cases hc : createSummary t g with
    | none =>
        rw [hc] at h
        exact absurd h (by simp)
    | some s =>
        rw [hc] at h
        dsimp only at h
        have hx := Option.some.inj h
        rw [← hx]
        exact List.sorted_insertionSort countDescRel _
  · intro t v l h
    unfold boxplotCategoryOrder at h
    by_cases h1 : t.rows = [] ∨ majorCol ∉ t.cols ∨ minorCol ∉ t.cols ∨ v ∉ t.cols
    · rw [if_pos h1] at h
      exact absurd h (by simp)
    · rw [if_neg h1] at h
      by_cases h2 : boxplotRows t v = []
      · rw [if_pos h2] at h
        exact absurd h (by simp)
      · rw [if_neg h2] at h
        have hx := Option.some.inj h
        rw [← hx]
        exact List.sorted_insertionSort countDescRel _

/-- Witness for C7: the chart order of `machineTable` and the boxplot order
of `boxTable`, both descending. -/
theorem c7_witness :
    ([("A", 1), ("B", 1)] : List (String × Nat)).Pairwise countDescRel
    ∧ ([("A - X", 2)] : List (String × Nat)).Pairwise countDescRel :=
  ⟨c7_display_order_descending.1 machineTable majorCol _ (by rfl),
   c7_display_order_descending.2 boxTable "固形物回収率 %" _ (by rfl)⟩

theorem reMatchHere_eq_litPrefixB :
    ∀ (pat txt : List Char), (∀ p ∈ pat, p ≠ '.') →
      reMatchHere pat txt = litPrefixB pat txt := by
  intro pat
  induction pat with
  | nil => intro txt _; rfl
  | cons p ps ih =>
      intro txt h
      cases txt with
      | nil => rfl
      | cons c cs =>
          have hd : decide (p = '.') = false :=
            decide_eq_false (h p (List.mem_cons_self _ _))
          show ((decide (p = '.') && decide (c ≠ '\n') || decide (p = c))
                && reMatchHere ps cs)
              = (decide (p = c) && litPrefixB ps cs)
          rw [hd, ih cs (fun x hx => h x (List.mem_cons_of_mem _ hx))]
          simp

theorem reSearch_eq_isInfixB (pat : List Char) (h : ∀ p ∈ pat, p ≠ '.') :
    ∀ txt, reSearch pat txt = isInfixB pat txt := by
  intro txt
  induction txt with
  | nil => exact reMatchHere_eq_litPrefixB pat [] h
  | cons c cs ih =>
      show (reMatchHere pat (c :: cs) || reSearch pat cs)
          = (litPrefixB pat (c :: cs) || isInfixB pat cs)
      rw [reMatchHere_eq_litPrefixB pat _ h, ih]

theorem litPrefixB_iff (n : List Char) :
    ∀ h, litPrefixB n h = true ↔ n <+: h := by
  induction n with
  | nil =>
      intro h
      simp [litPrefixB]
  | cons a as ih =>
      intro h
      cases h with
      | nil => simp [litPrefixB]
      | cons b bs => simp [litPrefixB, List.cons_prefix_cons, ih bs, And.comm]

theorem isInfixB_iff (n : List Char) :
    ∀ h, isInfixB n h = true ↔ n <:+: h := by
  intro h
  induction h with
  | nil =>
      show litPrefixB n [] = true ↔ _
      rw [litPrefixB_iff]
      simp
  | cons c cs ih =>
      show (litPrefixB n (c :: cs) || isInfixB n cs) = true ↔ _
      rw [Bool.or_eq_true, litPrefixB_iff, ih, List.infix_cons_iff]

/-- C9 as amended: for the text branch of the additional display filter,
when the lowercased search string contains no regex metacharacter, a row is
retained iff the lowercased string form of its cell contains the lowercased
search string as a substring (the code hands the search string to
`re.search`, so metacharacters match more liberally than substring
containment - hence the hypothesis); float-NaN missing cells stringify to
`"nan"` (so searches contained in `"nan"` match them), while cells nulled
to `pd.NA` by the zero-as-missing rewrite stringify to `"<NA>"`, not
`"nan"`. -/
theorem c9_text_filter_amended (t : Table) (col pat : String)
    (hmeta : ∀ ch ∈ (pyLower pat).data, ch ∉ regexMetaChars) :
    (textDisplayFilter t col pat).cols = t.cols
    ∧ (textDisplayFilter t col pat).rows
        = t.rows.filter (fun r =>
            isInfixB (pyLower pat).data (pyLower (pyStr (cellVal t.cols r col))).data)
    ∧ pyStr Cell.nan = "nan" ∧ pyStr Cell.NA = "<NA>" := by
  refine ⟨rfl, ?_, rfl, rfl⟩
  have hdot : ∀ p ∈ (pyLower pat).data, p ≠ '.' := by
    intro p hp heq
    exact hmeta p hp (by rw [heq]; decide)
  show t.rows.filter _ = t.rows.filter _
  apply List.filter_congr
  intro r _
  exact reSearch_eq_isInfixB _ hdot _

/-- Counterexample to C9 as stated.  First: searching for `"."` retains the
row whose cell is `"ab"` (the code treats the search string as a regex, and
`'.'` matches any character) even though `"."` is not a substring of
`"ab"`.  Second: searching for `"nan"` drops the row whose cell is `pd.NA`
- produced by the app's own zero-as-missing rewrite - even though the claim
says a missing cell is stringified to `"nan"` and `"nan"` contains itself
as a substring. -/
theorem c9_counterexample :
    (textDisplayFilter abTable "c" ".").rows = abTable.rows
    ∧ isInfixB (pyLower ".").data (pyLower (pyStr (Cell.str "ab"))).data = false
    ∧ (textDisplayFilter naCellTable "c" "nan").rows = []
    ∧ isInfixB (pyLower "nan").data (pyLower "nan").data = true := by
  exact ⟨rfl, by decide, rfl, by decide⟩

/-- Witness for C9 (amended) on `textTable` with the metacharacter-free
search string `"NA"`. -/
theorem c9_witness :
    (textDisplayFilter textTable "c" "NA").cols = textTable.cols
    ∧ (textDisplayFilter textTable "c" "NA").rows
        = textTable.rows.filter (fun r =>
            isInfixB (pyLower "NA").data
              (pyLower (pyStr (cellVal textTable.cols r "c"))).data)
    ∧ pyStr Cell.nan = "nan" ∧ pyStr Cell.NA = "<NA>" :=
  c9_text_filter_amended textTable "c" "NA" (by decide)

/-- C10: the row-deletion step is all-or-nothing.  When the displayed rows
are non-empty and every displayed index label is still present in the
working table, the working table becomes exactly its rows whose label is
not displayed (in original order, columns untouched) and the display table
equals the updated working table; when any displayed label is absent, the
working table is left completely unchanged. -/
theorem c10_delete_all_or_nothing (f d : Table) :
    ((displayedIdxs d ≠ []
        ∧ (displayedIdxs d).all (fun i => decide (i ∈ displayedIdxs f)) = true) →
      (deleteDisplayed f d).1
          = ⟨f.cols, f.rows.filter (fun r => decide (r.1 ∉ displayedIdxs d))⟩
        ∧ (deleteDisplayed f d).2 = (deleteDisplayed f d).1)
    ∧ (¬ (displayedIdxs d).all (fun i => decide (i ∈ displayedIdxs f)) = true →
        (deleteDisplayed f d).1 = f) := by
  constructor
  · intro h
    unfold deleteDisplayed
    rw [if_pos h]
    exact ⟨rfl, rfl⟩
  · intro h
    unfold deleteDisplayed
    rw [if_neg (fun hc => h hc.2)]
    by_cases h2 : displayedIdxs d ≠ []
    · rw [if_pos h2]
    · rw [if_neg h2]

/-- Witness for C10: deleting `displayPresent` (all labels present) from
`workTable` filters out exactly its row and resyncs the display; deleting
`displayStale` (label 5 absent) leaves `workTable` unchanged. -/
theorem c10_witness :
    ((deleteDisplayed workTable displayPresent).1
        = ⟨workTable.cols,
            workTable.rows.filter (fun r => decide (r.1 ∉ displayedIdxs displayPresent))⟩
      ∧ (deleteDisplayed workTable displayPresent).2
          = (deleteDisplayed workTable displayPresent).1)
    ∧ (deleteDisplayed workTable displayStale).1 = workTable :=
  ⟨(c10_delete_all_or_nothing workTable displayPresent).1 (by decide),
   (c10_delete_all_or_nothing workTable displayStale).2 (by decide)⟩

end Dehydrator
